import Mathlib

/-!
Verification of the `dmfg-persistence` typed SQLite persistence adapter.

The development is a shallow embedding of the repository's three source
files:

* `src/lib.rs` — the data model: the six-case field-kind descriptor
  `PersistenceType`, the six-case value variant `PersistenceData`, the
  schema contract `PersistenceSpec` (a Rust trait of static functions,
  embedded as a structure of functions, which the design notes of the
  repository itself present as an equivalent formulation), and the
  predicate AST `Query`.
* `src/persistence_adapter/sqlite.rs` — the live adapter: SQL command
  strings are built exactly as the Rust code pushes them (`push_str`
  calls become appends, `itertools::intersperse` becomes
  `List.intersperse`, `for_each(push_str)` becomes a left fold), and the
  row/bind processing loops become structural recursions.  A call that
  panics in Rust (`expect`) is embedded as `Except.error` carrying the
  panic message; driver-level effects (the actual SQLite engine) are out
  of scope, so each operation is modelled by the command string it
  prepares, the parameter binds it performs and the pure processing of
  the row list the driver would hand back.
* `src/persistence_adapter/sqlite_persistence.rs` — a stale second copy
  of the adapter that the crate root never declares as a module; it is
  embedded only where a claim explicitly compares the two variants
  (the `delete` command string).

Machine integers: Rust `u64` is embedded as `Nat`, `i64` as `Int`, and
the `as` casts between them as explicit arithmetic modulo `2 ^ 64`.
Rust `f32`/`f64` appear only as opaque payloads in every claim under
study (no claim depends on floating-point arithmetic or rounding), so
`f64` is embedded as Lean's `Float` and `f32` as a wrapper structure
around it; the `as f64` / `as f32` casts become the wrapper's coercions.
-/

/-- Field-kind descriptor from `lib.rs`: `PersistenceType`, one case per
column kind, each carrying the field's name. -/
inductive PersistenceType where
  | string (n : String)
  | bytes (n : String)
  | integer (n : String)
  | unsignedInteger (n : String)
  | float (n : String)
  | double (n : String)

/-- The name accessor `PersistenceType::get_name` from `lib.rs`. -/
def PersistenceType.get_name : PersistenceType → String
  | .string n => n
  | .bytes n => n
  | .integer n => n
  | .unsignedInteger n => n
  | .float n => n
  | .double n => n

/-- Model of Rust's `f32`.  This toolchain has no 32-bit float type and no
claim depends on floating-point values, so the payload is a wrapper
around `Float`; the lossy `f64 as f32` narrowing is therefore not
modelled (it is never the subject of a claim). -/
structure Float32 where
  val : Float

/-- The widening cast `f32 as f64` used at every bind site. -/
def f32_as_f64 (f : Float32) : Float := f.val

/-- The narrowing cast `f64 as f32` used at every read site. -/
def f64_as_f32 (f : Float) : Float32 := { val := f }

/-- The wrapping cast `u as i64` for `u : u64` (embedded as `Nat`):
values below `2 ^ 63` are preserved, larger ones wrap to negatives. -/
def u64_as_i64 (u : Nat) : Int :=
  if u < 2 ^ 63 then (u : Int) else (u : Int) - 2 ^ 64

/-- The wrapping cast `i as u64` for `i : i64` (embedded as `Int`):
two's-complement reinterpretation, i.e. reduction modulo `2 ^ 64`. -/
def i64_as_u64 (i : Int) : Nat := (i % 2 ^ 64).toNat

/-- Value variant from `lib.rs`: `PersistenceData`, the six-case tagged
value moved across every I/O boundary. -/
inductive PersistenceData where
  | string (s : String)
  | bytes (b : List Nat)
  | integer (i : Int)
  | unsignedInteger (u : Nat)
  | float (f : Float32)
  | double (d : Float)

/-- Predicate AST from `lib.rs`: `Query`.  The source shares sub-trees
through `Rc`; sharing is irrelevant to the value semantics, so sub-trees
are held directly. -/
inductive Query where
  | Or (a b : Query)
  | And (a b : Query)
  | Not (a : Query)
  | Equals (a : String) (b : PersistenceData)
  | GreaterThan (a : String) (b : PersistenceData)
  | LessThan (a : String) (b : PersistenceData)

/-- Schema contract from `lib.rs`: the trait `PersistenceSpec<Key, Data>`,
embedded as a structure of functions (the repository's own design notes
state the value-based schema is an equivalent formulation).  The Rust
`HashMap`s exchanged with `serialize_data` / `deserialize_data` are
embedded as association lists accessed only through `mapGet`. -/
structure PersistenceSpec (Key Data : Type) where
  fields : List PersistenceType
  key_field : String
  serialize_key : Key → PersistenceData
  deserialize_key : PersistenceData → Option Key
  serialize_data : Data → Option (List (String × PersistenceData))
  deserialize_data : List (String × PersistenceData) → Option Data

/-- `HashMap::get`, on the association-list embedding of the map. -/
def mapGet (k : String) : List (String × PersistenceData) → Option PersistenceData
  | [] => none
  | (k', v) :: m => if k' = k then some v else mapGet k m

/-- `HashMap::insert`, on the association-list embedding: the new entry
replaces any previous one for the same key. -/
def mapInsert (k : String) (v : PersistenceData) (m : List (String × PersistenceData)) :
    List (String × PersistenceData) :=
  (k, v) :: m.filter (fun p => p.1 != k)

/-- A value as SQLite stores it: the storage class a bind produces.
`blob` carries byte values, `int` a 64-bit integer, `real` a 64-bit
float. -/
inductive SqlValue where
  | text (s : String)
  | blob (b : List Nat)
  | int (i : Int)
  | real (r : Float)

/-- The six-way bind dispatch that appears verbatim at every bind site of
`sqlite.rs` (`store`, `delete`, `contains`, `load`, `update`, `query`):
strings bind as text, byte vectors as blobs, `i64` directly,
`u64` through `u as i64`, `f32` through `f as f64`, `f64` directly. -/
def bindSql : PersistenceData → SqlValue
  | .string s => .text s
  | .bytes b => .blob b
  | .integer i => .int i
  | .unsignedInteger u => .int (u64_as_i64 u)
  | .float f => .real (f32_as_f64 f)
  | .double d => .real d

/-- The typed column read of `collect_fields` in `sqlite.rs`: the read is
dispatched on the field's declared kind; `UnsignedInteger` reads an
`i64` and casts it with `as u64`, `Float` reads an `f64` and casts with
`as f32`.  A read against a non-matching storage class fails (`none`,
which the caller turns into the `"Invalid column"` panic). -/
def read_column : PersistenceType → SqlValue → Option PersistenceData
  | .string _, .text s => some (.string s)
  | .bytes _, .blob b => some (.bytes b)
  | .integer _, .int i => some (.integer i)
  | .unsignedInteger _, .int i => some (.unsignedInteger (i64_as_u64 i))
  | .float _, .real r => some (.float (f64_as_f32 r))
  | .double _, .real r => some (.double r)
  | _, _ => none

/-- The loop body of `SqlitePersistence::collect_fields` in `sqlite.rs`:
walk the returned row's columns in order; a column name unknown to the
schema panics (`"Unknown table field"`), a failed typed read panics
(`"Invalid column"`), and each decoded value is inserted into the map
under the field's name. -/
def collect_fields_go (spec_types : List PersistenceType) :
    List (String × SqlValue) → List (String × PersistenceData) →
    Except String (List (String × PersistenceData))
  | [], data_out => .ok data_out
  | (column, v) :: rest, data_out =>
    match spec_types.find? (fun f => f.get_name == column) with
    | none => .error "Unknown table field"
    | some column_info =>
      match read_column column_info v with
      | none => .error "Invalid column"
      | some d => collect_fields_go spec_types rest (mapInsert column_info.get_name d data_out)

/-- `SqlitePersistence::collect_fields` from `sqlite.rs`: a row is the
list of its `(column name, stored value)` pairs in column order. -/
def collect_fields (spec_types : List PersistenceType) (row : List (String × SqlValue)) :
    Except String (List (String × PersistenceData)) :=
  collect_fields_go spec_types row []

/-- `SqlitePersistence::generate_filter` from `sqlite.rs`: compiles the
predicate AST to a WHERE fragment, threading the next placeholder index
and accumulating the constants to bind, in left-to-right order. -/
def generate_filter : Query → Nat → List PersistenceData →
    String × Nat × List PersistenceData
  | .Or a b, start_index, values =>
    let (statement_a, index_end_a, values) := generate_filter a start_index values
    let (statement_b, index_end_b, values) := generate_filter b index_end_a values
    ("( " ++ statement_a ++ " OR " ++ statement_b ++ " )", index_end_b, values)
  | .And a b, start_index, values =>
    let (statement_a, index_end_a, values) := generate_filter a start_index values
    let (statement_b, index_end_b, values) := generate_filter b index_end_a values
    ("( " ++ statement_a ++ " AND " ++ statement_b ++ " )", index_end_b, values)
  | .Not a, start_index, values =>
    let (statement_a, index_end_a, values) := generate_filter a start_index values
    ("( NOT " ++ statement_a ++ " )", index_end_a, values)
  | .Equals a b, start_index, values =>
    (" \"" ++ a ++ "\"=? ", start_index + 1, values ++ [b])
  | .GreaterThan a b, start_index, values =>
    (" \"" ++ a ++ "\">? ", start_index + 1, values ++ [b])
  | .LessThan a b, start_index, values =>
    (" \"" ++ a ++ "\"<? ", start_index + 1, values ++ [b])

/-- Number of comparison (`Equals` / `GreaterThan` / `LessThan`) leaves
of a predicate AST. -/
def leafCount : Query → Nat
  | .Or a b | .And a b => leafCount a + leafCount b
  | .Not a => leafCount a
  | .Equals _ _ | .GreaterThan _ _ | .LessThan _ _ => 1

/-- The constants of the comparison leaves of a predicate AST, in
left-to-right traversal order. -/
def leafValues : Query → List PersistenceData
  | .Or a b | .And a b => leafValues a ++ leafValues b
  | .Not a => leafValues a
  | .Equals _ b | .GreaterThan _ b | .LessThan _ b => [b]

/-- The positional bind loop of `query` in `sqlite.rs`: placeholder
`i + 1` gets the `i`-th accumulated constant, through the six-way bind
dispatch. -/
def query_binds (placeholder_values : List PersistenceData) : List (Nat × SqlValue) :=
  placeholder_values.enum.map (fun p => (p.1 + 1, bindSql p.2))

/-- A `for_each(|s| command.push_str(&s))` over a list of fragments:
a left fold of string append. -/
def pushAll (command : String) (parts : List String) : String :=
  parts.foldl (fun command s => command ++ s) command

/-- One column specification of the CREATE TABLE statement built by
`initialize` in `sqlite.rs`: the six-kind mapping to SQLite column
types. -/
def colSpec : PersistenceType → String
  | .string name => name ++ " TEXT"
  | .bytes name => name ++ " BLOB"
  | .integer name => name ++ " INTEGER"
  | .unsignedInteger name => name ++ " INTEGER"
  | .float name => name ++ " REAL"
  | .double name => name ++ " REAL"

/-- The single DDL statement executed by `initialize` in `sqlite.rs`
(the method name itself cannot be used as a Lean identifier here), built
piece by piece exactly as the source pushes it. -/
def create_table_command (table_name : String) (fields : List PersistenceType)
    (key_field : String) : String :=
  let command := "CREATE TABLE IF NOT EXISTS \""
  let command := command ++ table_name
  let command := command ++ "\" ("
  let command := pushAll command (List.intersperse ", " (fields.map colSpec))
  command ++ (", PRIMARY KEY (" ++ key_field ++ ") );")

/-- The SELECT statement prepared by `load` in `sqlite.rs`. -/
def load_command (table_name key_field : String) : String :=
  let command := "SELECT * FROM \""
  let command := command ++ table_name
  let command := command ++ "\" WHERE \""
  let command := command ++ key_field
  command ++ "\" = :primary_key"

/-- The result of `load` in `sqlite.rs`, as a function of the rows the
driver returns for the prepared statement: the source calls
`prepared_query.next()` once, decodes a `Row` through `collect_fields`
and `Spec::deserialize_data`, and maps `Done` to `None`. -/
def load_result {Key Data : Type} (spec : PersistenceSpec Key Data)
    (rows : List (List (String × SqlValue))) : Except String (Option Data) :=
  match rows with
  | [] => .ok none
  | r :: _ => (collect_fields spec.fields r).map (fun m => spec.deserialize_data m)

/-- The bind loop of `store` in `sqlite.rs`: for each schema field in
declaration order (positional index `field_index + 1`), take the value
from the serialized map, fall back to the serialized key when the field
is the key field, and panic (`"Missing serialized field"`) otherwise. -/
def store_binds_loop (key_field : String) (serialized_key : PersistenceData)
    (serialized : List (String × PersistenceData)) :
    List PersistenceType → Nat → Except String (List (Nat × SqlValue))
  | [], _ => .ok []
  | f :: fs, field_index =>
    match (mapGet f.get_name serialized).orElse
        (fun _ => if f.get_name == key_field then some serialized_key else none) with
    | none => .error "Missing serialized field"
    | some v =>
      (store_binds_loop key_field serialized_key serialized fs (field_index + 1)).map
        (fun rest => (field_index + 1, bindSql v) :: rest)

/-- Outcome of the value-binding phase of `store`: a Rust panic
(process abort), a returned `StoreError`, or the performed positional
binds. -/
inductive BindOutcome (α : Type) where
  | panicked (msg : String)
  | storeError (msg : String)
  | ok (a : α)

/-- Whether a bind outcome is a returned `StoreError`. -/
def BindOutcome.isStoreError {α : Type} : BindOutcome α → Bool
  | .storeError _ => true
  | _ => false

/-- The observable outcome of `store` in `sqlite.rs` up to the statement
step: `Spec::serialize_data` returning `None` surfaces a `StoreError`
(`"Failed to serialize data"`); otherwise the per-field bind loop runs,
and its `expect` panic aborts the process. -/
def store_binds {Key Data : Type} (spec : PersistenceSpec Key Data)
    (key : Key) (data : Data) : BindOutcome (List (Nat × SqlValue)) :=
  match spec.serialize_data data with
  | none => .storeError "Failed to serialize data"
  | some serialized =>
    match store_binds_loop spec.key_field (spec.serialize_key key) serialized spec.fields 0 with
    | .error msg => .panicked msg
    | .ok l => .ok l

/-- The DELETE statement built by `delete` in `sqlite.rs`. -/
def delete_command (table_name key_field : String) : String :=
  let command := "DELETE FROM "
  let command := command ++ table_name
  let command := command ++ " WHERE \""
  let command := command ++ key_field
  command ++ "\"=?"

/-- The DELETE statement built by the stale `delete` variant in
`sqlite_persistence.rs` (a file the crate root never declares as a
module): the table name is concatenated directly with `WHERE`. -/
def delete_command_stale (table_name key_field : String) : String :=
  let command := "DELETE FROM "
  let command := command ++ table_name
  let command := command ++ "WHERE "
  let command := command ++ key_field
  command ++ "=?"

/-- The single positional bind performed by `delete` in `sqlite.rs`: the
serialized key at index 1, through the six-way bind dispatch. -/
def delete_binds {Key Data : Type} (spec : PersistenceSpec Key Data) (key : Key) :
    List (Nat × SqlValue) :=
  [(1, bindSql (spec.serialize_key key))]

/-- The `LIMIT` operand of `scan` and `query` in `sqlite.rs`:
`limit.map(|l| l as isize).unwrap_or(-1)`.  On the 64-bit target the
`usize as isize` cast wraps exactly like `u64 as i64`, so a limit of
`2 ^ 63` or more becomes a negative operand. -/
def limit_operand (limit : Option Nat) : Int :=
  (limit.map (fun l => u64_as_i64 l)).getD (-1)

/-- The SELECT statement prepared by `scan` in `sqlite.rs` (a single
`format!`). -/
def scan_command (table_name key_field : String) (start : Nat) (limit : Option Nat) :
    String :=
  "SELECT * FROM \"" ++ table_name ++ "\" ORDER BY \"" ++ key_field ++ "\" LIMIT "
    ++ toString (limit_operand limit) ++ " OFFSET " ++ toString start

/-- The row loop shared verbatim by `scan` and `query` in `sqlite.rs`,
as a function of the rows the driver returns, in order: each row is
decoded with `collect_fields`; the key column is looked up in the
collected map (`expect "Key field not present"`) and decoded with
`Spec::deserialize_key` (`expect "Invalid key found while
deserializing"`); rows whose `Spec::deserialize_data` is `None` are
skipped, the others are pushed in order. -/
def process_rows {Key Data : Type} (spec : PersistenceSpec Key Data) :
    List (List (String × SqlValue)) → Except String (List (Key × Data))
  | [] => .ok []
  | r :: rest =>
    match collect_fields spec.fields r with
    | .error e => .error e
    | .ok fields =>
      match mapGet spec.key_field fields with
      | none => .error "Key field not present"
      | some kd =>
        match spec.deserialize_key kd with
        | none => .error "Invalid key found while deserializing"
        | some key =>
          match process_rows spec rest with
          | .error e => .error e
          | .ok tail =>
            match spec.deserialize_data fields with
            | some entry => .ok ((key, entry) :: tail)
            | none => .ok tail

/-- The SET-clause column list of `update` in `sqlite.rs`: with
`only_update = Some(k)` the listed names are kept in the order of `k`
with the key field filtered out; with `None` all non-key schema fields
in declaration order. -/
def update_set_columns (key_field : String) (fields : List PersistenceType) :
    Option (List String) → List String
  | some k => k.filter (fun x => x != key_field)
  | none => (fields.map PersistenceType.get_name).filter (fun x => x != key_field)

/-- The rendered SET clause of `update` in `sqlite.rs`: the column list
formatted as `name = ?` and interspersed with `", "`. -/
def update_set_clause (key_field : String) (fields : List PersistenceType)
    (only_update : Option (List String)) : String :=
  pushAll "" (List.intersperse ", "
    ((update_set_columns key_field fields only_update).map (fun name => name ++ " = ?")))

/-- The UPDATE statement built by `update` in `sqlite.rs`. -/
def update_command (table_name key_field : String) (fields : List PersistenceType)
    (only_update : Option (List String)) : String :=
  let command := "UPDATE "
  let command := command ++ table_name
  let command := command ++ " SET "
  let command := command ++ update_set_clause key_field fields only_update
  command ++ (" WHERE " ++ key_field ++ " = :key")

/-- The fields whose values the positional bind loop of `update` in
`sqlite.rs` iterates: with `Some(f)` the schema fields, in declaration
order, whose name is contained in `f` (note: the key field is not
filtered out here); with `None` all non-key schema fields. -/
def update_bind_fields (key_field : String) (fields : List PersistenceType) :
    Option (List String) → List PersistenceType
  | some f => fields.filter (fun v => f.contains v.get_name)
  | none => fields.filter (fun v => v.get_name != key_field)

/-- The positional bind loop of `update` in `sqlite.rs` over the fields
selected by `update_bind_fields`: unlike `store`, a field missing from
the serialized map panics with no key fallback. -/
def update_bind_values (serialized : List (String × PersistenceData)) :
    List PersistenceType → Nat → Except String (List (Nat × SqlValue))
  | [], _ => .ok []
  | f :: fs, field_index =>
    match mapGet f.get_name serialized with
    | none => .error "Missing serialized field"
    | some v =>
      (update_bind_values serialized fs (field_index + 1)).map
        (fun rest => (field_index + 1, bindSql v) :: rest)

/-! ## Helper lemmas: folding interspersed fragments is `String.intercalate` -/

/-- The tail shape of an interspersed list: a separator before each
element. -/
def sepList (sep : String) : List String → List String
  | [] => []
  | a :: as => sep :: a :: sepList sep as

theorem intersperse_eq_sepList (sep : String) :
    ∀ (as : List String) (p : String),
      List.intersperse sep (p :: as) = p :: sepList sep as
  | [], _ => rfl
  | q :: as, p => by
    rw [List.intersperse_cons_cons, intersperse_eq_sepList sep as q]
    rfl

theorem intercalate_go_eq_pushAll (sep : String) :
    ∀ (as : List String) (acc : String),
      String.intercalate.go acc sep as = pushAll acc (sepList sep as)
  | [], _ => rfl
  | a :: as, acc => by
    show String.intercalate.go (acc ++ sep ++ a) sep as = _
    rw [intercalate_go_eq_pushAll sep as (acc ++ sep ++ a)]
    rfl

theorem intercalate_go_append (sep : String) :
    ∀ (as : List String) (init acc : String),
      String.intercalate.go (init ++ acc) sep as
        = init ++ String.intercalate.go acc sep as
  | [], _, _ => rfl
  | a :: as, init, acc => by
    show String.intercalate.go (init ++ acc ++ sep ++ a) sep as
      = init ++ String.intercalate.go (acc ++ sep ++ a) sep as
    rw [← intercalate_go_append sep as init (acc ++ sep ++ a)]
    simp [String.append_assoc]

theorem pushAll_intersperse (sep init : String) (parts : List String) :
    pushAll init (List.intersperse sep parts) = init ++ String.intercalate sep parts := by
  cases parts with
  | nil => exact (String.append_empty init).symm
  | cons p as =>
    rw [intersperse_eq_sepList]
    show pushAll (init ++ p) (sepList sep as) = init ++ String.intercalate.go p sep as
    rw [← intercalate_go_eq_pushAll, ← intercalate_go_append]

/-! ## C4: the CREATE TABLE statement -/

/-- C4: for every schema, the statement executed by `initialize` is
`CREATE TABLE IF NOT EXISTS "<table>" (<col specs>, PRIMARY KEY (<key_field>) );`
where the column specifications appear in `fields()` order and map each
kind as String to TEXT, Bytes to BLOB, Integer and UnsignedInteger to
INTEGER, Float and Double to REAL. -/
theorem create_table_statement_form (t key_field n : String)
    (fields : List PersistenceType) :
    create_table_command t fields key_field
      = "CREATE TABLE IF NOT EXISTS \"" ++ t ++ "\" ("
        ++ String.intercalate ", " (fields.map colSpec)
        ++ ", PRIMARY KEY (" ++ key_field ++ ") );"
    ∧ colSpec (.string n) = n ++ " TEXT"
    ∧ colSpec (.bytes n) = n ++ " BLOB"
    ∧ colSpec (.integer n) = n ++ " INTEGER"
    ∧ colSpec (.unsignedInteger n) = n ++ " INTEGER"
    ∧ colSpec (.float n) = n ++ " REAL"
    ∧ colSpec (.double n) = n ++ " REAL" := by
  refine ⟨?_, rfl, rfl, rfl, rfl, rfl, rfl⟩
  simp [create_table_command, pushAll_intersperse, String.append_assoc]

/-! ## C6: the two DELETE statements -/

/-- C6: `delete` in `sqlite.rs` prepares
`DELETE FROM <table> WHERE "<key_field>"=?` (with a space before
`WHERE`) and performs exactly one positional bind, the serialized key at
index 1; the stale `sqlite_persistence.rs` variant concatenates the
table name directly with `WHERE` (no intervening space). -/
theorem delete_statement_forms {Key Data : Type} (spec : PersistenceSpec Key Data)
    (key : Key) (t k : String) :
    delete_command t k = "DELETE FROM " ++ t ++ " WHERE \"" ++ k ++ "\"=?"
    ∧ delete_command_stale t k = "DELETE FROM " ++ t ++ "WHERE " ++ k ++ "=?"
    ∧ delete_binds spec key = [(1, bindSql (spec.serialize_key key))] :=
  ⟨rfl, rfl, rfl⟩

/-! ## C2: `load` decodes only the first returned row -/

/-- C2: `load` returns `None` when the driver returns no row; when at
least one row is returned it is the first row alone that is decoded
(`collect_fields` then `Spec::deserialize_data`), any further rows being
ignored, and a `None` from `deserialize_data` propagates as a `None`
result. -/
theorem load_first_row_only {Key Data : Type} (spec : PersistenceSpec Key Data)
    (r : List (String × SqlValue)) (rest : List (List (String × SqlValue))) :
    load_result spec [] = .ok none
    ∧ load_result spec (r :: rest) = load_result spec [r]
    ∧ load_result spec (r :: rest)
        = (collect_fields spec.fields r).map (fun m => spec.deserialize_data m) :=
  ⟨rfl, rfl, rfl⟩

/-! ## C5: placeholder stability of the predicate compiler -/

theorem leafValues_length (q : Query) : (leafValues q).length = leafCount q := by
  induction q <;> simp [leafValues, leafCount, *]

theorem generate_filter_index_values (q : Query) :
    ∀ (i : Nat) (acc : List PersistenceData),
      (generate_filter q i acc).2.1 = i + leafCount q
      ∧ (generate_filter q i acc).2.2 = acc ++ leafValues q := by
  induction q with
  | Or a b iha ihb =>
    intro i acc
    rcases h1 : generate_filter a i acc with ⟨sa, ia, va⟩
    rcases h2 : generate_filter b ia va with ⟨sb, ib, vb⟩
    have ha := iha i acc
    have hb := ihb ia va
    rw [h1] at ha
    rw [h2] at hb
    simp only [generate_filter, h1, h2]
    obtain ⟨ha1, ha2⟩ := ha
    obtain ⟨hb1, hb2⟩ := hb
    simp only at ha1 ha2 hb1 hb2
    subst ha1 ha2
    simp [leafCount, leafValues, hb1, hb2]
    omega
  | And a b iha ihb =>
    intro i acc
    rcases h1 : generate_filter a i acc with ⟨sa, ia, va⟩
    rcases h2 : generate_filter b ia va with ⟨sb, ib, vb⟩
    have ha := iha i acc
    have hb := ihb ia va
    rw [h1] at ha
    rw [h2] at hb
    simp only [generate_filter, h1, h2]
    obtain ⟨ha1, ha2⟩ := ha
    obtain ⟨hb1, hb2⟩ := hb
    simp only at ha1 ha2 hb1 hb2
    subst ha1 ha2
    simp [leafCount, leafValues, hb1, hb2]
    omega
  | Not a iha =>
    intro i acc
    rcases h1 : generate_filter a i acc with ⟨sa, ia, va⟩
    have ha := iha i acc
    rw [h1] at ha
    simp only [generate_filter, h1]
    obtain ⟨ha1, ha2⟩ := ha
    simp only at ha1 ha2
    simp [leafCount, leafValues, ha1, ha2]
  | Equals a b =>
    intro i acc
    simp [generate_filter, leafCount, leafValues]
  | GreaterThan a b =>
    intro i acc
    simp [generate_filter, leafCount, leafValues]
  | LessThan a b =>
    intro i acc
    simp [generate_filter, leafCount, leafValues]

/-- C5: `generate_filter q i acc` returns `i` plus the number of
comparison leaves of `q` as the next index, and `acc` extended with
exactly the leaves' constants in left-to-right traversal order, so the
bind loop of `query` performs exactly one positional bind per comparison
leaf. -/
theorem generate_filter_placeholder_stability (q : Query) (i : Nat)
    (acc : List PersistenceData) :
    (generate_filter q i acc).2.1 = i + leafCount q
    ∧ (generate_filter q i acc).2.2 = acc ++ leafValues q
    ∧ (query_binds (generate_filter q 0 []).2.2).length = leafCount q := by
  refine ⟨(generate_filter_index_values q i acc).1,
    (generate_filter_index_values q i acc).2, ?_⟩
  have h := (generate_filter_index_values q 0 []).2
  simp [query_binds, h, leafValues_length]

/-! ## C8: the unsigned bind/read round trip -/

/-- C8: `UnsignedInteger` values are bound through the widening cast
`u as i64` and read back through the narrowing cast `i64 as u64`; for
every `u` with `u ≤ 2 ^ 63 - 1` the composition returns `u` unchanged. -/
theorem unsigned_bind_read_roundtrip (n : String) (u : Nat) (h : u ≤ 2 ^ 63 - 1) :
    bindSql (.unsignedInteger u) = .int (u64_as_i64 u)
    ∧ i64_as_u64 (u64_as_i64 u) = u
    ∧ read_column (.unsignedInteger n) (bindSql (.unsignedInteger u))
        = some (.unsignedInteger u) := by
  have hlt : u < 2 ^ 63 := by omega
  have h2 : u64_as_i64 u = (u : Int) := by
    simp only [u64_as_i64]
    rw [if_pos hlt]
  have h3 : i64_as_u64 (u64_as_i64 u) = u := by
    rw [h2]
    simp only [i64_as_u64]
    omega
  refine ⟨rfl, h3, ?_⟩
  show some (PersistenceData.unsignedInteger (i64_as_u64 (u64_as_i64 u)))
    = some (.unsignedInteger u)
  rw [h3]

/-- Concrete instance of `unsigned_bind_read_roundtrip` at the largest
value of the stated range, `2 ^ 63 - 1`. -/
theorem unsigned_bind_read_roundtrip_witness :
    2 ^ 63 - 1 ≤ 2 ^ 63 - 1
    ∧ (bindSql (.unsignedInteger (2 ^ 63 - 1)) = .int (u64_as_i64 (2 ^ 63 - 1))
      ∧ i64_as_u64 (u64_as_i64 (2 ^ 63 - 1)) = 2 ^ 63 - 1
      ∧ read_column (.unsignedInteger "unsigned_integer")
          (bindSql (.unsignedInteger (2 ^ 63 - 1)))
          = some (.unsignedInteger (2 ^ 63 - 1))) :=
  ⟨le_refl _, unsigned_bind_read_roundtrip "unsigned_integer" (2 ^ 63 - 1) (le_refl _)⟩

/-! ## C3: the bind phase of `store` -/

/-- Closed form of the bind loop of `store`: when every field either has
an entry in the serialized map or is the key field, the loop performs
one positional bind per field in declaration order (the map entry when
present, the serialized key otherwise); when some field has neither, it
panics with `"Missing serialized field"`. -/
theorem store_binds_loop_eq (key_field : String) (skey : PersistenceData)
    (serialized : List (String × PersistenceData)) :
    ∀ (fs : List PersistenceType) (i : Nat),
      store_binds_loop key_field skey serialized fs i =
        cond (fs.all (fun f => (mapGet f.get_name serialized).isSome
            || f.get_name == key_field))
          (.ok ((List.enumFrom i fs).map
            (fun p => (p.1 + 1, bindSql ((mapGet p.2.get_name serialized).getD skey)))))
          (.error "Missing serialized field")
  | [], _ => rfl
  | f :: fs, i => by
    have ih := store_binds_loop_eq key_field skey serialized fs (i + 1)
    cases hv : mapGet f.get_name serialized with
    | some v =>
      have lhs : store_binds_loop key_field skey serialized (f :: fs) i
          = (store_binds_loop key_field skey serialized fs (i + 1)).map
              (fun rest => (i + 1, bindSql v) :: rest) := by
        simp only [store_binds_loop, hv]
        rfl
      rw [lhs, ih]
      simp only [List.all_cons, hv, Option.isSome_some, Bool.true_or, Bool.true_and]
      cases hall : fs.all (fun f => (mapGet f.get_name serialized).isSome
          || f.get_name == key_field) with
      | true => simp [Except.map, List.enumFrom, hv]
      | false => rfl
    | none =>
      cases hk : (f.get_name == key_field) with
      | true =>
        have lhs : store_binds_loop key_field skey serialized (f :: fs) i
            = (store_binds_loop key_field skey serialized fs (i + 1)).map
                (fun rest => (i + 1, bindSql skey) :: rest) := by
          simp only [store_binds_loop, hv, hk]
          rfl
        rw [lhs, ih]
        simp only [List.all_cons, hv, hk, Option.isSome_none, Bool.false_or,
          Bool.true_and]
        cases hall : fs.all (fun f => (mapGet f.get_name serialized).isSome
            || f.get_name == key_field) with
        | true => simp [Except.map, List.enumFrom, hv]
        | false => rfl
      | false =>
        have lhs : store_binds_loop key_field skey serialized (f :: fs) i
            = .error "Missing serialized field" := by
          simp only [store_binds_loop, hv, hk]
          rfl
        rw [lhs]
        simp only [List.all_cons, hv, hk, Option.isSome_none, Bool.false_or,
          Bool.false_and]
        rfl

/-- What the amended reading of the spec says the bind phase of `store`
does: a `None` from `serialize_data` is a returned `StoreError`; with a
serialized map, if every schema field either appears in the map or is
the key field, each field is bound positionally in declaration order to
its map entry, the key field falling back to the serialized key when
absent from the map; otherwise the process panics with
`"Missing serialized field"` (no `StoreError` is returned). -/
def store_binds_expected {Key Data : Type} (spec : PersistenceSpec Key Data)
    (key : Key) (data : Data) : BindOutcome (List (Nat × SqlValue)) :=
  match spec.serialize_data data with
  | none => .storeError "Failed to serialize data"
  | some serialized =>
    cond (spec.fields.all (fun f => (mapGet f.get_name serialized).isSome
        || f.get_name == spec.key_field))
      (.ok (spec.fields.enum.map
        (fun p => (p.1 + 1,
          bindSql ((mapGet p.2.get_name serialized).getD (spec.serialize_key key))))))
      (.panicked "Missing serialized field")

/-- C3 (amended): the bind phase of `store` agrees with
`store_binds_expected`: fields present in the serialized map are bound
to their mapped values, an absent key field is bound from
`serialize_key`, and a non-key field absent from the serialized map
makes the process panic via `expect` — a `StoreError` is returned only
when `serialize_data` itself yields `None`. -/
theorem store_bind_selection {Key Data : Type} (spec : PersistenceSpec Key Data)
    (key : Key) (data : Data) :
    store_binds spec key data = store_binds_expected spec key data := by
  cases hs : spec.serialize_data data with
  | none => simp [store_binds, store_binds_expected, hs]
  | some serialized =>
    simp only [store_binds, store_binds_expected, hs]
    rw [store_binds_loop_eq]
    cases hall : spec.fields.all (fun f => (mapGet f.get_name serialized).isSome
        || f.get_name == spec.key_field) with
    | true =>
      rw [List.enum_eq_enumFrom]
      rfl
    | false => rfl

/-- A two-field schema over trivial key and record types whose
`serialize_data` returns an empty map: the non-key field `a` is always
missing from the serialized map. -/
def specC3 : PersistenceSpec Unit Unit where
  fields := [.string "key", .string "a"]
  key_field := "key"
  serialize_key := fun _ => .string "k"
  deserialize_key := fun _ => some ()
  serialize_data := fun _ => some []
  deserialize_data := fun _ => some ()

/-- C3 counterexample: with the serialized map missing the non-key field
`a`, `store` panics via `expect` (`"Missing serialized field"`); it does
not surface a `StoreError`. -/
theorem store_missing_field_panics :
    store_binds specC3 () () = .panicked "Missing serialized field"
    ∧ (store_binds specC3 () ()).isStoreError = false :=
  ⟨rfl, rfl⟩

/-! ## C7: the scan statement and its row decoding -/

/-- Whether the row loop of `scan` / `query` gets past the two key
`expect`s on a row: its columns collect without panic, the key column is
present in the collected map and `Spec::deserialize_key` succeeds on
it. -/
def row_key_ok {Key Data : Type} (spec : PersistenceSpec Key Data)
    (r : List (String × SqlValue)) : Bool :=
  match collect_fields spec.fields r with
  | .error _ => false
  | .ok m =>
    match mapGet spec.key_field m with
    | none => false
    | some v => (spec.deserialize_key v).isSome

/-- The decoded `(key, data)` pair of one returned row, `none` when the
row's `Spec::deserialize_data` (or any earlier step) fails. -/
def decode_row {Key Data : Type} (spec : PersistenceSpec Key Data)
    (r : List (String × SqlValue)) : Option (Key × Data) :=
  match collect_fields spec.fields r with
  | .error _ => none
  | .ok m =>
    match mapGet spec.key_field m with
    | none => none
    | some v =>
      match spec.deserialize_key v with
      | none => none
      | some k => (spec.deserialize_data m).map (fun d => (k, d))

/-- The accumulation loop of `scan` / `query` is a `filterMap` over the
returned rows whenever every row passes the key `expect`s. -/
theorem process_rows_filterMap {Key Data : Type} (spec : PersistenceSpec Key Data) :
    ∀ (rows : List (List (String × SqlValue))),
      rows.all (row_key_ok spec) = true →
      process_rows spec rows = .ok (rows.filterMap (decode_row spec))
  | [], _ => rfl
  | r :: rest, h => by
    rw [List.all_cons, Bool.and_eq_true] at h
    obtain ⟨h1, h2⟩ := h
    have ih := process_rows_filterMap spec rest h2
    cases hc : collect_fields spec.fields r with
    | error e =>
      simp only [row_key_ok, hc] at h1
      exact Bool.noConfusion h1
    | ok m =>
      cases hk : mapGet spec.key_field m with
      | none =>
        simp only [row_key_ok, hc, hk] at h1
        exact Bool.noConfusion h1
      | some v =>
        cases hdk : spec.deserialize_key v with
        | none =>
          simp only [row_key_ok, hc, hk, hdk, Option.isSome_none] at h1
          exact Bool.noConfusion h1
        | some kk =>
          simp only [process_rows, hc, hk, hdk, ih, List.filterMap_cons, decode_row]
          cases hd : spec.deserialize_data m with
          | some entry => simp [hd]
          | none => simp [hd]

/-- C7 (amended): `scan` prepares exactly
`SELECT * FROM "<table>" ORDER BY "<key_field>" LIMIT <lim> OFFSET <start>`
with `<lim>` being `-1` when the limit is absent and the given limit
wrapped through the `usize as isize` cast when present — equal to the
given limit itself whenever it is at most `2 ^ 63 - 1` — and returns
the decoded `(key, data)` pairs of the returned rows in order, dropping
every row whose `Spec::deserialize_data` returns `None`. -/
theorem scan_statement_and_rows {Key Data : Type} (spec : PersistenceSpec Key Data)
    (t k : String) (start l m : Nat) (rows : List (List (String × SqlValue)))
    (hl : l ≤ 2 ^ 63 - 1) (h : rows.all (row_key_ok spec) = true) :
    scan_command t k start (some m)
      = "SELECT * FROM \"" ++ t ++ "\" ORDER BY \"" ++ k ++ "\" LIMIT "
        ++ toString (u64_as_i64 m) ++ " OFFSET " ++ toString start
    ∧ scan_command t k start (some l)
      = "SELECT * FROM \"" ++ t ++ "\" ORDER BY \"" ++ k ++ "\" LIMIT "
        ++ toString (l : Int) ++ " OFFSET " ++ toString start
    ∧ scan_command t k start none
      = "SELECT * FROM \"" ++ t ++ "\" ORDER BY \"" ++ k ++ "\" LIMIT "
        ++ "-1" ++ " OFFSET " ++ toString start
    ∧ process_rows spec rows = .ok (rows.filterMap (decode_row spec)) := by
  have hw : limit_operand (some l) = (l : Int) := by
    show u64_as_i64 l = (l : Int)
    simp only [u64_as_i64]
    rw [if_pos (show l < 2 ^ 63 by omega)]
  refine ⟨rfl, ?_, rfl, process_rows_filterMap spec rows h⟩
  show "SELECT * FROM \"" ++ t ++ "\" ORDER BY \"" ++ k ++ "\" LIMIT "
      ++ toString (limit_operand (some l)) ++ " OFFSET " ++ toString start = _
  rw [hw]

/-- C7 counterexample: at `limit = 2 ^ 63` (a representable `usize`) the
prepared statement's `LIMIT` operand is not the given limit: the
`usize as isize` cast wraps it to `-2 ^ 63`, and the emitted statement
carries the negative operand. -/
theorem scan_limit_operand_wraps :
    limit_operand (some (2 ^ 63)) = -(2 ^ 63 : Int)
    ∧ limit_operand (some (2 ^ 63)) ≠ ((2 ^ 63 : Nat) : Int)
    ∧ scan_command "t" "k" 0 (some (2 ^ 63))
        ≠ "SELECT * FROM \"t\" ORDER BY \"k\" LIMIT "
          ++ toString ((2 ^ 63 : Nat) : Int) ++ " OFFSET " ++ toString 0
    ∧ scan_command "t" "k" 0 (some (2 ^ 63))
        = "SELECT * FROM \"t\" ORDER BY \"k\" LIMIT -9223372036854775808 OFFSET 0" :=
  ⟨by decide, by decide, by decide, by decide⟩

/-- The schema the repository's own test suite uses, cut down to a
string key and one string value column: enough to exercise every decode
path. -/
def demoSpec : PersistenceSpec String String where
  fields := [.string "key", .string "val"]
  key_field := "key"
  serialize_key := fun k => .string k
  deserialize_key := fun v => match v with | .string s => some s | _ => none
  serialize_data := fun d => some [("val", .string d)]
  deserialize_data := fun m =>
    match mapGet "val" m with
    | some (.string s) => some s
    | _ => none

/-- Two returned rows for `demoSpec`: the first decodes fully, the
second has a decodable key but no value column, so its record decode
fails and it is dropped. -/
def demoRows : List (List (String × SqlValue)) :=
  [[("key", .text "k1"), ("val", .text "v1")], [("key", .text "k2")]]

/-- Concrete instance of `scan_statement_and_rows` on `demoSpec` and
`demoRows`. -/
theorem scan_statement_and_rows_witness :
    (5 : Nat) ≤ 2 ^ 63 - 1
    ∧ demoRows.all (row_key_ok demoSpec) = true
    ∧ (scan_command "tbl" "key" 2 (some 7)
        = "SELECT * FROM \"tbl\" ORDER BY \"key\" LIMIT "
          ++ toString (u64_as_i64 7) ++ " OFFSET " ++ toString 2
      ∧ scan_command "tbl" "key" 2 (some 5)
        = "SELECT * FROM \"tbl\" ORDER BY \"key\" LIMIT "
          ++ toString ((5 : Nat) : Int) ++ " OFFSET " ++ toString 2
      ∧ scan_command "tbl" "key" 2 none
        = "SELECT * FROM \"tbl\" ORDER BY \"key\" LIMIT "
          ++ "-1" ++ " OFFSET " ++ toString 2
      ∧ process_rows demoSpec demoRows
        = .ok (demoRows.filterMap (decode_row demoSpec))) :=
  ⟨by decide, rfl,
    scan_statement_and_rows demoSpec "tbl" "key" 2 5 7 demoRows (by decide) rfl⟩

/-! ## C9: panics versus silent skips in the row loop -/

/-- C9: a returned row whose key column is absent from the collected
column map, or whose key fails `Spec::deserialize_key`, makes `scan` and
`query` panic via `expect` (the loop is shared verbatim by both); only a
row whose `Spec::deserialize_data` returns `None` is silently skipped. -/
theorem scan_query_panic_on_bad_key {Key Data : Type} (spec : PersistenceSpec Key Data)
    (r : List (String × SqlValue)) (rest : List (List (String × SqlValue)))
    (m : List (String × PersistenceData)) (v : PersistenceData)
    (h1 : collect_fields spec.fields r = .ok m) :
    (mapGet spec.key_field m = none →
      process_rows spec (r :: rest) = .error "Key field not present")
    ∧ (mapGet spec.key_field m = some v → spec.deserialize_key v = none →
      process_rows spec (r :: rest) = .error "Invalid key found while deserializing")
    ∧ (mapGet spec.key_field m = some v → (spec.deserialize_key v).isSome = true →
      spec.deserialize_data m = none →
      process_rows spec (r :: rest) = process_rows spec rest) := by
  refine ⟨?_, ?_, ?_⟩
  · intro hk
    simp only [process_rows, h1, hk]
  · intro hk hdk
    simp only [process_rows, h1, hk, hdk]
  · intro hk hs hd
    cases hdk : spec.deserialize_key v with
    | none =>
      rw [hdk] at hs
      exact absurd hs (by simp)
    | some kk =>
      simp only [process_rows, h1, hk, hdk, hd]
      cases hrest : process_rows spec rest <;> simp

/-- Concrete instance of `scan_query_panic_on_bad_key`: a row with no
key column makes the row loop panic rather than skip the row. -/
theorem scan_query_panic_on_bad_key_witness :
    collect_fields demoSpec.fields [("val", SqlValue.text "x")]
      = .ok [("val", PersistenceData.string "x")]
    ∧ process_rows demoSpec [[("val", SqlValue.text "x")]]
      = .error "Key field not present" :=
  ⟨rfl,
    (scan_query_panic_on_bad_key demoSpec [("val", .text "x")] []
      [("val", .string "x")] (.string "x") rfl).1 rfl⟩

/-! ## C1: SET-clause order versus bind order in `update` -/

/-- A three-field schema field list for exercising `update`: the key and
two value columns `a`, `b`. -/
def fieldsC1 : List PersistenceType := [.string "key", .string "a", .string "b"]

/-- An `only_update` list naming the two value columns in the order
opposite to their declaration order. -/
def onlyC1 : List String := ["b", "a"]

/-- A serialized map for `fieldsC1` holding distinct values for `a` and
`b`. -/
def serializedC1 : List (String × PersistenceData) :=
  [("a", .string "va"), ("b", .string "vb")]

/-- C1 evaluated where it fails: with `only = ["b", "a"]` the SET clause
lists the columns in the order of `only` (`b = ?, a = ?`), not in
`fields()` declaration order, while the positional binds follow
`fields()` order (`a`'s value to placeholder 1, `b`'s to placeholder 2);
the two orders differ, so column `b` receives `a`'s serialized value and
column `a` receives `b`'s. -/
theorem update_set_and_bind_order_diverge :
    update_set_columns "key" fieldsC1 (some onlyC1) = ["b", "a"]
    ∧ update_set_clause "key" fieldsC1 (some onlyC1) = "b = ?, a = ?"
    ∧ (update_bind_fields "key" fieldsC1 (some onlyC1)).map PersistenceType.get_name
        = ["a", "b"]
    ∧ update_bind_values serializedC1 (update_bind_fields "key" fieldsC1 (some onlyC1)) 0
        = .ok [(1, .text "va"), (2, .text "vb")]
    ∧ (["b", "a"] : List String) ≠ (["a", "b"] : List String) :=
  ⟨rfl, rfl, rfl, rfl, by decide⟩

/-! ## C10: `only` containing the key field shifts the binds -/

/-- Filtering a duplicate-free list down to the members of a
duplicate-free sublist keeps exactly one element per member. -/
theorem filter_contains_length :
    ∀ (fn only : List String), fn.Nodup → only.Nodup → (∀ x ∈ only, x ∈ fn) →
      (fn.filter (fun x => only.contains x)).length = only.length
  | [], only, _, _, h3 => by
    have : only = [] := List.eq_nil_iff_forall_not_mem.mpr
      (fun a ha => by cases h3 a ha)
    subst this
    rfl
  | a :: fn, only, h1, h2, h3 => by
    rw [List.nodup_cons] at h1
    obtain ⟨ha, h1'⟩ := h1
    by_cases hmem : a ∈ only
    · have hca : only.contains a = true := List.elem_iff.mpr hmem
      rw [List.filter_cons_of_pos hca]
      have hfg : fn.filter (fun x => only.contains x)
          = fn.filter (fun x => (only.erase a).contains x) := by
        apply List.filter_congr
        intro x hx
        have hxa : x ≠ a := fun he => ha (he ▸ hx)
        cases hc : only.contains x with
        | true =>
          have : x ∈ only.erase a :=
            (List.Nodup.mem_erase_iff h2).mpr ⟨hxa, List.elem_iff.mp hc⟩
          exact (List.elem_iff.mpr this).symm
        | false =>
          cases hc' : (only.erase a).contains x with
          | true =>
            have hmo : x ∈ only := ((List.Nodup.mem_erase_iff h2).mp
              (List.elem_iff.mp hc')).2
            have hct : only.contains x = true := List.elem_iff.mpr hmo
            exact absurd (hc ▸ hct) Bool.false_ne_true
          | false => rfl
      rw [hfg, List.length_cons,
        filter_contains_length fn (only.erase a) h1' (List.Nodup.erase a h2)
          (fun x hx => by
            have hxo := (List.Nodup.mem_erase_iff h2).mp hx
            cases List.mem_cons.mp (h3 x hxo.2) with
            | inl he => exact absurd he hxo.1
            | inr hm => exact hm)]
      rw [List.length_erase_of_mem hmem]
      have : 0 < only.length := List.length_pos_of_mem hmem
      omega
    · have hca : ¬ only.contains a = true := fun hc => hmem (List.elem_iff.mp hc)
      rw [List.filter_cons_of_neg hca]
      exact filter_contains_length fn only h1' h2 (fun x hx => by
        cases List.mem_cons.mp (h3 x hx) with
        | inl he => exact absurd (he ▸ hx) hmem
        | inr hm => exact hm)

/-- Removing one occurrence of a member from a duplicate-free list by
filtering shortens it by exactly one. -/
theorem filter_ne_length :
    ∀ (only : List String) (key : String), only.Nodup → key ∈ only →
      (only.filter (fun x => x != key)).length + 1 = only.length
  | [], key, _, h2 => by cases h2
  | a :: only, key, h1, h2 => by
    rw [List.nodup_cons] at h1
    obtain ⟨ha, h1'⟩ := h1
    by_cases heq : a = key
    · subst heq
      rw [List.filter_cons_of_neg (by simp)]
      have hself : only.filter (fun x => x != a) = only :=
        List.filter_eq_self.mpr (fun x hx =>
          bne_iff_ne.mpr (fun he => ha (he ▸ hx)))
      rw [hself, List.length_cons]
    · have e1 : List.filter (fun x => x != key) (a :: only)
          = a :: List.filter (fun x => x != key) only :=
        List.filter_cons_of_pos (by simp [heq])
      have h2' : key ∈ only := by
        cases List.mem_cons.mp h2 with
        | inl he => exact absurd he.symm heq
        | inr hm => exact hm
      rw [e1, List.length_cons, List.length_cons,
        ← filter_ne_length only key h1' h2']

/-- Filtering a field list on a predicate of the field name matches
filtering the name list. -/
theorem filter_get_name_length (q : String → Bool) :
    ∀ (fields : List PersistenceType),
      (fields.filter (fun v => q v.get_name)).length
        = ((fields.map PersistenceType.get_name).filter q).length
  | [] => rfl
  | f :: fs => by
    cases hq : q f.get_name with
    | true =>
      have e1 : List.filter (fun v => q v.get_name) (f :: fs)
          = f :: List.filter (fun v => q v.get_name) fs :=
        List.filter_cons_of_pos hq
      have e2 : List.filter q (f.get_name :: List.map PersistenceType.get_name fs)
          = f.get_name :: List.filter q (List.map PersistenceType.get_name fs) :=
        List.filter_cons_of_pos hq
      rw [List.map_cons, e1, e2, List.length_cons, List.length_cons,
        filter_get_name_length q fs]
    | false =>
      have e1 : List.filter (fun v => q v.get_name) (f :: fs)
          = List.filter (fun v => q v.get_name) fs :=
        List.filter_cons_of_neg (by simp [hq])
      have e2 : List.filter q (f.get_name :: List.map PersistenceType.get_name fs)
          = List.filter q (List.map PersistenceType.get_name fs) :=
        List.filter_cons_of_neg (by simp [hq])
      rw [List.map_cons, e1, e2, filter_get_name_length q fs]

/-- C10: when `only` contains the key field's name together with `n`
other schema field names, the SET clause of `update` carries `n`
placeholders but the positional bind loop iterates `n + 1` fields,
because the SET construction filters the key field out while the bind
loop (schema fields filtered by membership in `only`) does not. -/
theorem update_only_with_key_extra_bind (fields : List PersistenceType)
    (key_field : String) (only : List String)
    (h1 : (fields.map PersistenceType.get_name).Nodup)
    (h2 : only.Nodup)
    (h3 : only.all (fun x => (fields.map PersistenceType.get_name).contains x) = true)
    (h4 : key_field ∈ only) :
    (update_bind_fields key_field fields (some only)).length
      = (update_set_columns key_field fields (some only)).length + 1 := by
  have hsub : ∀ x ∈ only, x ∈ fields.map PersistenceType.get_name := by
    intro x hx
    exact List.elem_iff.mp (List.all_eq_true.mp h3 x hx)
  have hbind : (update_bind_fields key_field fields (some only)).length = only.length := by
    show (fields.filter (fun v => only.contains v.get_name)).length = only.length
    rw [filter_get_name_length]
    exact filter_contains_length (fields.map PersistenceType.get_name) only h1 h2 hsub
  have hset : (update_set_columns key_field fields (some only)).length + 1
      = only.length := by
    show (only.filter (fun x => x != key_field)).length + 1 = only.length
    exact filter_ne_length only key_field h2 h4
  omega

/-- Concrete instance of `update_only_with_key_extra_bind`: schema
`[key, a]`, `only = ["key", "a"]` — one SET placeholder, two binds. -/
theorem update_only_with_key_extra_bind_witness :
    ([PersistenceType.string "key", PersistenceType.string "a"].map
        PersistenceType.get_name).Nodup
    ∧ (["key", "a"] : List String).Nodup
    ∧ (["key", "a"] : List String).all (fun x =>
        ([PersistenceType.string "key", PersistenceType.string "a"].map
          PersistenceType.get_name).contains x) = true
    ∧ "key" ∈ (["key", "a"] : List String)
    ∧ (update_bind_fields "key" [PersistenceType.string "key", PersistenceType.string "a"]
          (some ["key", "a"])).length
      = (update_set_columns "key" [PersistenceType.string "key", PersistenceType.string "a"]
          (some ["key", "a"])).length + 1 :=
  ⟨by decide, by decide, by decide, by decide,
    update_only_with_key_extra_bind
      [PersistenceType.string "key", PersistenceType.string "a"] "key" ["key", "a"]
      (by decide) (by decide) (by decide) (by decide)⟩
